import Mathlib

/-!
Verification of the claim-intake orchestration of `src/app.py`
(`submit_claim`, `validate_claim`, and the helpers they call).

The handler is embedded as a pure function over an `Env` of external-service
oracles (SQL policy lookup, blob upload, vision captioning, form recognizer,
GPT summarizer, Cosmos upsert, webhook).  Each oracle returns `Except String`
to model a Python call that may raise; the handler's `try/except` structure
becomes explicit matches on those results.  The handler produces the HTTP
`Response` together with the ordered trace of external side-effect `Event`s
it issued (each event records an *attempt*, made whether or not the call
succeeded).
-/

set_option autoImplicit false

namespace ClaimIntake

/-- One uploaded multipart file: its declared filename and an abstract
handle for its stream contents (`file.stream` in the source). -/
structure FilePart where
  filename : String
  stream : Nat
deriving DecidableEq

/-- The parsed fields of a `POST /submit-claim` request
(`request.form.get(...)` and `request.files.getlist(...)` in `submit_claim`,
src/app.py lines 92-97). -/
structure Request where
  name : String
  email : String
  description : String
  accidentDate : String
  vehicleModel : String
  carPhotos : List FilePart
  supportingDocuments : List FilePart
deriving DecidableEq

/-- The list `files = request.files.getlist("carPhotos") + request.files.getlist("supportingDocuments")`
(src/app.py line 97). -/
def reqFiles (req : Request) : List FilePart :=
  req.carPhotos ++ req.supportingDocuments

/-- One entry of `document_details` (src/app.py lines 157-162).  `formData`
models the Python dict as an insertion-ordered association list. -/
structure DocumentDetail where
  file : String
  caption : String
  formData : List (String × String)
  blobUrl : String
deriving DecidableEq

/-- The `claim_data` record upserted into Cosmos DB (src/app.py lines 185-197). -/
structure ClaimRecord where
  id : String
  name : String
  email : String
  customerId : String
  policyId : String
  accidentDate : String
  vehicleModel : String
  description : String
  gptSummary : String
  documents : List DocumentDetail
  status : String
deriving DecidableEq

/-- The HTTP responses `submit_claim` can return: the two 400 JSON rejections,
the 500 JSON error, and the rendered `success.html` page. -/
inductive Response where
  | json400 (message : String)
  | json500 (message : String)
  | successHtml (message : String) (claimId : String)
deriving DecidableEq

/-- HTTP status code of each response shape. -/
def Response.statusCode : Response → Nat
  | .json400 _ => 400
  | .json500 _ => 500
  | .successHtml _ _ => 200

/-- External side effects issued by the handler, in program order.  Each
constructor records that the corresponding external call was *attempted*. -/
inductive Event where
  | sqlLookup (name email : String)
  | blobWrite (blobName : String)
  | visionCall (url : String)
  | formCall (url : String)
  | sqlDocInsert (claimId fileName url : String)
  | gptCall
  | cosmosWrite (record : ClaimRecord)
  | webhookPost (record : ClaimRecord)
deriving DecidableEq

/-- The external collaborators of the handler.  A function returning
`Except String _` models a call that may raise (the `String` is the
exception text).  `claimId` is the value of `str(uuid.uuid4())` for this
request; `blobUrl` and `sasToken` model `blob_client.url` and
`generate_blob_sas` as functions of the blob name. -/
structure Env where
  sqlValidate : String → String → Except String (Option (String × String))
  uploadBlob : String → Nat → Except String Unit
  blobUrl : String → String
  sasToken : String → String
  describeImage : String → Except String (List String)
  analyzeDocument : String → Except String (List (Option String × Option String))
  sqlInsertDoc : String → String → String → Except String Unit
  gptSummary : String → Except String String
  upsertItem : ClaimRecord → Except String Unit
  webhookUrl : String
  webhookPost : ClaimRecord → Except String Unit
  claimId : String

/-- Characters kept by werkzeug's `secure_filename` sanitizer
(the regex `[^A-Za-z0-9_.-]` removes everything else; non-ASCII characters
are dropped by the ascii re-encode that precedes it). -/
def sfAllowed (c : Char) : Bool :=
  (Char.ofNat 65 ≤ c && c ≤ Char.ofNat 90) ||
  (Char.ofNat 97 ≤ c && c ≤ Char.ofNat 122) ||
  (Char.ofNat 48 ≤ c && c ≤ Char.ofNat 57) ||
  c = Char.ofNat 95 || c = Char.ofNat 46 || c = Char.ofNat 45

/-- Holds of `.` and `_`, the characters stripped from both ends. -/
def sfStripped (c : Char) : Bool :=
  c = Char.ofNat 46 || c = Char.ofNat 95

/-- Python's `str.split()` (split on whitespace runs, dropping empty
words), over a character list; `acc` holds the current word reversed. -/
def sfWordsAux : List Char → List Char → List (List Char)
  | [], acc => if acc.isEmpty then [] else [acc.reverse]
  | c :: cs, acc =>
    if c.isWhitespace then
      if acc.isEmpty then sfWordsAux cs [] else acc.reverse :: sfWordsAux cs []
    else sfWordsAux cs (c :: acc)

/-- werkzeug's `secure_filename` (posix path): replace the path separator
with a space, split on whitespace and re-join the words with `_`, drop every
character outside `[A-Za-z0-9_.-]`, then strip `.` and `_` from both ends.
(Non-ASCII input is approximated by dropping such characters, as the
`NFKD`-then-ascii step does for most of them; no claim depends on it.) -/
def secure_filename (filename : String) : String :=
  let noSep := filename.toList.map (fun c => if c = Char.ofNat 47 then Char.ofNat 32 else c)
  let joined := List.intercalate [Char.ofNat 95] (sfWordsAux noSep [])
  let kept := joined.filter sfAllowed
  String.mk (((kept.dropWhile sfStripped).reverse.dropWhile sfStripped).reverse)

/-- Outcome of `validate_claim` (src/app.py lines 69-83). -/
inductive ValidationResult where
  | valid (customerId policyId : String)
  | invalid
deriving DecidableEq

/-- The function `validate_claim(name, email)` (src/app.py lines 69-83): run the SQL
lookup; a returned row yields `{"isValid": True, customerId, policyId}`;
no row or any exception yields `{"isValid": False}`. -/
def validate_claim (env : Env) (name email : String) : ValidationResult :=
  match env.sqlValidate name email with
  | .ok (some (customerId, policyId)) => .valid customerId policyId
  | .ok none => .invalid
  | .error _ => .invalid

/-- The signed URL `blob_url_with_sas = f"{blob_url}?{sas_token}"` for one
file (src/app.py lines 113-124). -/
def fileUrl (env : Env) (f : FilePart) : String :=
  let filename := secure_filename f.filename
  env.blobUrl filename ++ "?" ++ env.sasToken filename

/-- Python's `str.strip()`: drop whitespace from both ends (written over the
character list so that it evaluates by kernel reduction). -/
def pyStrip (s : String) : String :=
  String.mk (((s.toList.dropWhile Char.isWhitespace).reverse.dropWhile Char.isWhitespace).reverse)

/-- Python dict assignment `form_data[key] = value`: replace the value at an
existing key in place, otherwise append the pair. -/
def dictInsert (fd : List (String × String)) (k v : String) : List (String × String) :=
  match fd with
  | [] => [(k, v)]
  | (k0, v0) :: rest => if k0 = k then (k0, v) :: rest else (k0, v0) :: dictInsert rest k v

/-- The loop over `result.key_value_pairs` (src/app.py lines 138-142):
`key = kv.key.content.strip() if kv.key and kv.key.content else ""` (likewise
for the value; an absent or empty content is `""`, and `"".strip() = ""`,
so both cases collapse to trimming the defaulted content), and the pair is
stored only when the trimmed key is non-empty. -/
def buildFormData : List (Option String × Option String) → List (String × String) → List (String × String)
  | [], fd => fd
  | kv :: rest, fd =>
    let key := pyStrip (kv.1.getD "")
    let value := pyStrip (kv.2.getD "")
    buildFormData rest (if key ≠ "" then dictInsert fd key value else fd)

/-- The enrichment of one uploaded file, after its upload succeeded
(src/app.py lines 126-162): the caption defaults to `"No caption detected"`
and is replaced only when `describe_image` succeeds with a non-empty caption
list; `form_data` is the trimmed key-value mapping, replaced by the
single-entry error dict `{"error": f"Recognizer error: {e}"}` when the
recognizer call raises. -/
def fileDetail (env : Env) (f : FilePart) : DocumentDetail :=
  let filename := secure_filename f.filename
  let url := fileUrl env f
  let caption :=
    match env.describeImage url with
    | .ok (c :: _) => c
    | .ok [] => "No caption detected"
    | .error _ => "No caption detected"
  let form_data :=
    match env.analyzeDocument url with
    | .ok kvs => buildFormData kvs []
    | .error e => [("error", "Recognizer error: " ++ e)]
  { file := filename, caption := caption, formData := form_data, blobUrl := url }

/-- The expected event trace of one iteration of the per-file loop when the
upload succeeds: the blob write, the two enrichment calls, and the
best-effort audit insert (src/app.py lines 111-162). -/
def fileEvents (env : Env) (claimId : String) (f : FilePart) : List Event :=
  let filename := secure_filename f.filename
  let url := fileUrl env f
  [.blobWrite filename, .visionCall url, .formCall url, .sqlDocInsert claimId filename url]

/-- One iteration of the per-file loop (src/app.py lines 111-162).
`upload_blob` is the only unguarded call: its exception escapes the loop
(`.error`), after the blob write was already attempted.  The caption call,
the recognizer call, and the SQL audit insert are each wrapped in their own
`try/except`, so their outcomes never abort the iteration; the audit
insert's result is discarded entirely (only printed). -/
def processFile (env : Env) (claimId : String) (f : FilePart) :
    List Event × Except String DocumentDetail :=
  let filename := secure_filename f.filename
  match env.uploadBlob filename f.stream with
  | .error e => ([.blobWrite filename], .error e)
  | .ok _ =>
    let url := fileUrl env f
    let detail := fileDetail env f
    match env.sqlInsertDoc claimId filename url with
    | .ok _ => (fileEvents env claimId f, .ok detail)
    | .error _ => (fileEvents env claimId f, .ok detail)

/-- The whole `for file in files:` loop (src/app.py lines 111-162),
accumulating `document_details` in order; an upload exception aborts the
loop and propagates (to the handler's outer `except`). -/
def processFiles (env : Env) (claimId : String) :
    List FilePart → List Event × Except String (List DocumentDetail)
  | [] => ([], .ok [])
  | f :: rest =>
    match processFile env claimId f with
    | (evs, .error e) => (evs, .error e)
    | (evs, .ok d) =>
      match processFiles env claimId rest with
      | (evs2, .error e) => (evs ++ evs2, .error e)
      | (evs2, .ok ds) => (evs ++ evs2, .ok (d :: ds))

/-- The expected trace of the whole loop when every upload succeeds. -/
def filesEvents (env : Env) (claimId : String) : List FilePart → List Event
  | [] => []
  | f :: rest => fileEvents env claimId f ++ filesEvents env claimId rest

/-- The prompt string `gpt_prompt` (src/app.py lines 166-169). -/
def gptPrompt (description : String) : String :=
  "Summarize the following vehicle accident report clearly and concisely so it can be cross-validated with visual damage evidence:\n\n" ++ description

/-- The value `gpt_summary` (src/app.py lines 164-183): initialized to the fixed
placeholder and replaced by the stripped completion text only when the GPT
call succeeds; any exception leaves the placeholder in place. -/
def summaryOf (env : Env) (description : String) : String :=
  match env.gptSummary (gptPrompt description) with
  | .ok content => pyStrip content
  | .error _ => "Summary not available due to error."

/-- The record `claim_data` (src/app.py lines 185-197). -/
def builtRecord (env : Env) (req : Request) (customerId policyId : String)
    (documents : List DocumentDetail) : ClaimRecord :=
  { id := env.claimId
    name := req.name
    email := req.email
    customerId := customerId
    policyId := policyId
    accidentDate := req.accidentDate
    vehicleModel := req.vehicleModel
    description := req.description
    gptSummary := summaryOf env req.description
    documents := documents
    status := "Submitted" }

/-- The best-effort webhook step (src/app.py lines 202-206): attempted only
when `LOGIC_APP_WEBHOOK_URL` is truthy; its own `try/except` makes its
outcome irrelevant (both arms of the match are identical). -/
def webhookStep (env : Env) (record : ClaimRecord) : List Event :=
  if env.webhookUrl ≠ "" then
    match env.webhookPost record with
    | .ok _ => [.webhookPost record]
    | .error _ => [.webhookPost record]
  else []

/-- The guard `if not files or all(f.filename == "" for f in files)`
(src/app.py line 99). -/
def noUsableFiles (req : Request) : Bool :=
  (reqFiles req).isEmpty || (reqFiles req).all (fun f => f.filename == "")

/-- The `POST /submit-claim` handler `submit_claim` (src/app.py lines
89-213): the no-files 400 guard, the policy-validation 400 guard, the
per-file upload-and-enrich loop, the summarization, the Cosmos upsert
(whose exception, like an upload exception, reaches the outer `except` and
becomes the generic 500), the best-effort webhook, and the success page. -/
def submit_claim (env : Env) (req : Request) : Response × List Event :=
  let files := reqFiles req
  if noUsableFiles req then
    (Response.json400 "No files uploaded.", [])
  else
    let evVal := [Event.sqlLookup req.name req.email]
    match validate_claim env req.name req.email with
    | .invalid => (Response.json400 "User does not have a valid policy.", evVal)
    | .valid customerId policyId =>
      let claimId := env.claimId
      match processFiles env claimId files with
      | (evs, .error _) => (Response.json500 "Internal Server Error", evVal ++ evs)
      | (evs, .ok document_details) =>
        let claim_data := builtRecord env req customerId policyId document_details
        let evs2 := evVal ++ evs ++ [Event.gptCall, Event.cosmosWrite claim_data]
        match env.upsertItem claim_data with
        | .error _ => (Response.json500 "Internal Server Error", evs2)
        | .ok _ =>
          (Response.successHtml "Claim submitted successfully." claimId,
           evs2 ++ webhookStep env claim_data)


/-- The no-files guard fires exactly when every attached file has an empty
filename (vacuously when no file is attached). -/
theorem noUsableFiles_iff (req : Request) :
    noUsableFiles req = true ↔ ∀ f ∈ reqFiles req, f.filename = "" := by
  unfold noUsableFiles
  cases h : reqFiles req with
  | nil => simp
  | cons f rest => simp [List.all_eq_true]

theorem processFile_ok (env : Env) (claimId : String) (f : FilePart)
    (h : env.uploadBlob (secure_filename f.filename) f.stream = .ok ()) :
    processFile env claimId f = (fileEvents env claimId f, .ok (fileDetail env f)) := by
  simp only [processFile, h]
  cases env.sqlInsertDoc claimId (secure_filename f.filename) (fileUrl env f) <;> rfl

theorem processFiles_ok (env : Env) (claimId : String) :
    ∀ files : List FilePart,
      (∀ f ∈ files, env.uploadBlob (secure_filename f.filename) f.stream = .ok ()) →
      processFiles env claimId files =
        (filesEvents env claimId files, .ok (files.map (fileDetail env))) := by
  intro files
  induction files with
  | nil => intro _; rfl
  | cons f rest ih =>
    intro h
    have h1 := processFile_ok env claimId f (h f (by simp))
    have h2 := ih (fun g hg => h g (by simp [hg]))
    simp [processFiles, h1, h2, filesEvents]

theorem processFiles_err (env : Env) (claimId : String) :
    ∀ files : List FilePart,
      (∃ f ∈ files, ∃ e, env.uploadBlob (secure_filename f.filename) f.stream = .error e) →
      ∃ e, (processFiles env claimId files).2 = .error e := by
  intro files
  induction files with
  | nil => rintro ⟨f, hf, _⟩; cases hf
  | cons f rest ih =>
    rintro ⟨g, hg, e, he⟩
    rcases List.mem_cons.mp hg with rfl | hgrest
    · have h1 : processFile env claimId g = ([.blobWrite (secure_filename g.filename)], .error e) := by
        simp [processFile, he]
      simp [processFiles, h1]
    · cases hpf : processFile env claimId f with
      | mk evs res =>
        cases res with
        | error e2 => simp [processFiles, hpf]
        | ok d =>
          obtain ⟨e3, he3⟩ := ih ⟨g, hgrest, e, he⟩
          cases hrest : processFiles env claimId rest with
          | mk evs2 res2 =>
            cases res2 with
            | error e4 => simp [processFiles, hpf, hrest]
            | ok ds => rw [hrest] at he3; simp at he3

theorem webhookStep_eq (env : Env) (record : ClaimRecord) :
    webhookStep env record =
      if env.webhookUrl ≠ "" then [Event.webhookPost record] else [] := by
  unfold webhookStep
  split
  · cases env.webhookPost record <;> rfl
  · rfl

/-- Characterization of the full success path: when some file has a usable
name, the policy lookup returns a row, every upload succeeds, and the Cosmos
upsert succeeds, the handler returns the success page and its trace is the
lookup, the per-file events, the GPT call, the Cosmos write of the built
record, and the webhook step. -/
theorem submit_claim_success_eq (env : Env) (req : Request) (customerId policyId : String)
    (hfiles : noUsableFiles req = false)
    (hval : env.sqlValidate req.name req.email = .ok (some (customerId, policyId)))
    (hup : ∀ f ∈ reqFiles req, env.uploadBlob (secure_filename f.filename) f.stream = .ok ())
    (hupsert : env.upsertItem
        (builtRecord env req customerId policyId ((reqFiles req).map (fileDetail env))) = .ok ()) :
    submit_claim env req =
      (Response.successHtml "Claim submitted successfully." env.claimId,
       Event.sqlLookup req.name req.email ::
         (filesEvents env env.claimId (reqFiles req) ++
          [Event.gptCall,
           Event.cosmosWrite (builtRecord env req customerId policyId
             ((reqFiles req).map (fileDetail env)))] ++
          webhookStep env (builtRecord env req customerId policyId
             ((reqFiles req).map (fileDetail env))))) := by
  have hpf := processFiles_ok env env.claimId (reqFiles req) hup
  simp only [submit_claim, hfiles, Bool.false_eq_true, if_false, validate_claim, hval, hpf,
    hupsert]
  simp [List.append_assoc]

theorem submit_claim_reject_files (env : Env) (req : Request)
    (h : noUsableFiles req = true) :
    submit_claim env req = (Response.json400 "No files uploaded.", []) := by
  simp [submit_claim, h]

theorem submit_claim_reject_policy (env : Env) (req : Request)
    (hfiles : noUsableFiles req = false)
    (hinv : validate_claim env req.name req.email = .invalid) :
    submit_claim env req =
      (Response.json400 "User does not have a valid policy.",
       [Event.sqlLookup req.name req.email]) := by
  simp [submit_claim, hfiles, hinv]

/-- Concrete fixture: every fatal collaborator succeeds, every degradable
collaborator fails. -/
def envOk : Env :=
  { sqlValidate := fun _ _ => .ok (some ("C1", "P1"))
    uploadBlob := fun _ _ => .ok ()
    blobUrl := fun n => "https://blob/" ++ n
    sasToken := fun _ => "sas"
    describeImage := fun _ => .error "vision down"
    analyzeDocument := fun _ => .error "recognizer down"
    sqlInsertDoc := fun _ _ _ => .error "sql down"
    gptSummary := fun _ => .error "gpt down"
    upsertItem := fun _ => .ok ()
    webhookUrl := "https://hook"
    webhookPost := fun _ => .error "hook down"
    claimId := "claim-1" }

/-- Concrete fixture: the policy lookup raises. -/
def envSqlDown : Env :=
  { envOk with sqlValidate := fun _ _ => .error "db down" }

/-- Concrete request with one named file and one empty-named file. -/
def reqTwo : Request :=
  { name := "Jane Doe", email := "jane@x.com", description := "rear-end crash",
    accidentDate := "2024-01-01", vehicleModel := "Civic",
    carPhotos := [⟨"photo.jpg", 1⟩, ⟨"", 2⟩], supportingDocuments := [] }

/-- Concrete request whose only file has an empty filename. -/
def reqEmptyNames : Request :=
  { name := "Jane Doe", email := "jane@x.com", description := "rear-end crash",
    accidentDate := "2024-01-01", vehicleModel := "Civic",
    carPhotos := [⟨"", 7⟩], supportingDocuments := [] }

/-- C3: a submission in which every attached file has an empty filename (or
no file is attached) gets the "No files uploaded." 400 rejection at once,
with an empty side-effect trace: no blob write, no policy lookup, no audit
insert, and no document-store write are issued. -/
theorem C3_no_files_rejected (env : Env) (req : Request)
    (hempty : ∀ f ∈ reqFiles req, f.filename = "") :
    submit_claim env req = (Response.json400 "No files uploaded.", []) :=
  submit_claim_reject_files env req ((noUsableFiles_iff req).mpr hempty)

theorem C3_no_files_rejected_witness :
    (∀ f ∈ reqFiles reqEmptyNames, f.filename = "") ∧
    submit_claim envOk reqEmptyNames = (Response.json400 "No files uploaded.", []) :=
  ⟨by decide, C3_no_files_rejected envOk reqEmptyNames (by decide)⟩

/-- C2: when the policy lookup finds no active-policy row, or the lookup
itself raises, the submission is answered with a 400 rejection; the trace
contains at most the policy lookup itself, so no upload, no enrichment
call, and no document-store write is ever attempted for it. -/
theorem C2_invalid_policy_rejected (env : Env) (req : Request)
    (hval : (∃ e, env.sqlValidate req.name req.email = .error e) ∨
            env.sqlValidate req.name req.email = .ok none) :
    (∃ msg, (submit_claim env req).1 = Response.json400 msg) ∧
    ((submit_claim env req).2 = [] ∨
     (submit_claim env req).2 = [Event.sqlLookup req.name req.email]) ∧
    (∀ record, Event.cosmosWrite record ∉ (submit_claim env req).2) ∧
    (∀ blobName, Event.blobWrite blobName ∉ (submit_claim env req).2) ∧
    (∀ url, Event.visionCall url ∉ (submit_claim env req).2) ∧
    (∀ url, Event.formCall url ∉ (submit_claim env req).2) := by
  have hinv : validate_claim env req.name req.email = .invalid := by
    unfold validate_claim
    rcases hval with ⟨e, he⟩ | hnone
    · rw [he]
    · rw [hnone]
  by_cases hnf : noUsableFiles req = true
  · rw [submit_claim_reject_files env req hnf]
    refine ⟨⟨"No files uploaded.", rfl⟩, Or.inl rfl, ?_, ?_, ?_, ?_⟩ <;> simp
  · rw [submit_claim_reject_policy env req (by simpa using hnf) hinv]
    refine ⟨⟨"User does not have a valid policy.", rfl⟩, Or.inr rfl, ?_, ?_, ?_, ?_⟩ <;> simp

theorem C2_invalid_policy_rejected_witness :
    (∃ msg, (submit_claim envSqlDown reqTwo).1 = Response.json400 msg) ∧
    ((submit_claim envSqlDown reqTwo).2 = [] ∨
     (submit_claim envSqlDown reqTwo).2 = [Event.sqlLookup reqTwo.name reqTwo.email]) ∧
    (∀ record, Event.cosmosWrite record ∉ (submit_claim envSqlDown reqTwo).2) ∧
    (∀ blobName, Event.blobWrite blobName ∉ (submit_claim envSqlDown reqTwo).2) ∧
    (∀ url, Event.visionCall url ∉ (submit_claim envSqlDown reqTwo).2) ∧
    (∀ url, Event.formCall url ∉ (submit_claim envSqlDown reqTwo).2) :=
  C2_invalid_policy_rejected envSqlDown reqTwo (Or.inl ⟨"db down", rfl⟩)

theorem noUsableFiles_false_iff (req : Request) :
    noUsableFiles req = false ↔ ∃ f ∈ reqFiles req, f.filename ≠ "" := by
  rw [← Bool.not_eq_true, noUsableFiles_iff]
  push_neg
  rfl

theorem mem_filesEvents (env : Env) (claimId : String) :
    ∀ (files : List FilePart) (f : FilePart), f ∈ files →
      Event.blobWrite (secure_filename f.filename) ∈ filesEvents env claimId files := by
  intro files
  induction files with
  | nil => intro f hf; cases hf
  | cons g rest ih =>
    intro f hf
    rcases List.mem_cons.mp hf with rfl | hfr
    · simp [filesEvents, fileEvents]
    · exact List.mem_append_right _ (ih f hfr)

/-- C1: with the captioning and field-extraction oracles left completely
arbitrary (they may raise on every file), an otherwise-healthy accepted
submission still processes every file, builds one result per file, and
persists the claim record: enrichment failures are confined to the recorded
per-file values (`fileDetail`) and never abort the loop or the persistence. -/
theorem C1_enrichment_failure_isolated (env : Env) (req : Request)
    (customerId policyId : String)
    (hfiles : noUsableFiles req = false)
    (hval : env.sqlValidate req.name req.email = .ok (some (customerId, policyId)))
    (hup : ∀ f ∈ reqFiles req, env.uploadBlob (secure_filename f.filename) f.stream = .ok ())
    (hupsert : ∀ record, env.upsertItem record = .ok ()) :
    ∃ record evs,
      submit_claim env req =
        (Response.successHtml "Claim submitted successfully." env.claimId, evs) ∧
      Event.cosmosWrite record ∈ evs ∧
      record.documents = (reqFiles req).map (fileDetail env) := by
  refine ⟨builtRecord env req customerId policyId ((reqFiles req).map (fileDetail env)),
    _, submit_claim_success_eq env req customerId policyId hfiles hval hup (hupsert _), ?_, rfl⟩
  simp

theorem C1_enrichment_failure_isolated_witness :
    ∃ record evs,
      submit_claim envOk reqTwo =
        (Response.successHtml "Claim submitted successfully." envOk.claimId, evs) ∧
      Event.cosmosWrite record ∈ evs ∧
      record.documents = (reqFiles reqTwo).map (fileDetail envOk) :=
  C1_enrichment_failure_isolated envOk reqTwo "C1" "P1" rfl rfl (fun _ _ => rfl) (fun _ => rfl)

/-- C4: for an accepted submission, the persisted record's `documents` list
has exactly the length of the submitted file list and its `i`-th entry is the
enrichment result (`fileDetail`: sanitized filename, caption, field mapping,
signed evidence URL) of the `i`-th submitted file. -/
theorem C4_one_result_per_file_ordered (env : Env) (req : Request)
    (customerId policyId : String)
    (hfiles : noUsableFiles req = false)
    (hval : env.sqlValidate req.name req.email = .ok (some (customerId, policyId)))
    (hup : ∀ f ∈ reqFiles req, env.uploadBlob (secure_filename f.filename) f.stream = .ok ())
    (hupsert : ∀ record, env.upsertItem record = .ok ()) :
    ∃ record evs,
      submit_claim env req =
        (Response.successHtml "Claim submitted successfully." env.claimId, evs) ∧
      Event.cosmosWrite record ∈ evs ∧
      record.documents.length = (reqFiles req).length ∧
      ∀ (i : Nat) (h1 : i < record.documents.length) (h2 : i < (reqFiles req).length),
        record.documents.get ⟨i, h1⟩ = fileDetail env ((reqFiles req).get ⟨i, h2⟩) := by
  refine ⟨builtRecord env req customerId policyId ((reqFiles req).map (fileDetail env)),
    _, submit_claim_success_eq env req customerId policyId hfiles hval hup (hupsert _), ?_, ?_, ?_⟩
  · simp
  · simp [builtRecord]
  · intro i h1 h2
    simp [builtRecord]

theorem C4_one_result_per_file_ordered_witness :
    ∃ record evs,
      submit_claim envOk reqTwo =
        (Response.successHtml "Claim submitted successfully." envOk.claimId, evs) ∧
      Event.cosmosWrite record ∈ evs ∧
      record.documents.length = (reqFiles reqTwo).length ∧
      ∀ (i : Nat) (h1 : i < record.documents.length) (h2 : i < (reqFiles reqTwo).length),
        record.documents.get ⟨i, h1⟩ = fileDetail envOk ((reqFiles reqTwo).get ⟨i, h2⟩) :=
  C4_one_result_per_file_ordered envOk reqTwo "C1" "P1" rfl rfl (fun _ _ => rfl) (fun _ => rfl)

/-- C7: when the GPT summarization call raises, the persisted record's
summary field is the fixed placeholder `"Summary not available due to
error."` and the claim is still persisted and answered with the success
page. -/
theorem C7_summary_fallback (env : Env) (req : Request)
    (customerId policyId : String) (e : String)
    (hfiles : noUsableFiles req = false)
    (hval : env.sqlValidate req.name req.email = .ok (some (customerId, policyId)))
    (hup : ∀ f ∈ reqFiles req, env.uploadBlob (secure_filename f.filename) f.stream = .ok ())
    (hupsert : ∀ record, env.upsertItem record = .ok ())
    (hgpt : env.gptSummary (gptPrompt req.description) = .error e) :
    ∃ record evs,
      submit_claim env req =
        (Response.successHtml "Claim submitted successfully." env.claimId, evs) ∧
      Event.cosmosWrite record ∈ evs ∧
      record.gptSummary = "Summary not available due to error." := by
  refine ⟨builtRecord env req customerId policyId ((reqFiles req).map (fileDetail env)),
    _, submit_claim_success_eq env req customerId policyId hfiles hval hup (hupsert _), ?_, ?_⟩
  · simp
  · simp [builtRecord, summaryOf, hgpt]

theorem C7_summary_fallback_witness :
    ∃ record evs,
      submit_claim envOk reqTwo =
        (Response.successHtml "Claim submitted successfully." envOk.claimId, evs) ∧
      Event.cosmosWrite record ∈ evs ∧
      record.gptSummary = "Summary not available due to error." :=
  C7_summary_fallback envOk reqTwo "C1" "P1" "gpt down" rfl rfl
    (fun _ _ => rfl) (fun _ => rfl) rfl

/-- C10: when at least one attached file has a non-empty filename, the
per-file loop runs over every file of the combined list — the empty-named
ones included, which are uploaded under the empty sanitized storage key
(`secure_filename "" = ""`) — so a blob write is attempted for every file
and the persisted record holds one entry per file. -/
theorem C10_empty_named_files_processed (env : Env) (req : Request)
    (customerId policyId : String)
    (hfiles : ∃ f ∈ reqFiles req, f.filename ≠ "")
    (hval : env.sqlValidate req.name req.email = .ok (some (customerId, policyId)))
    (hup : ∀ f ∈ reqFiles req, env.uploadBlob (secure_filename f.filename) f.stream = .ok ())
    (hupsert : ∀ record, env.upsertItem record = .ok ()) :
    (∀ f ∈ reqFiles req,
       Event.blobWrite (secure_filename f.filename) ∈ (submit_claim env req).2) ∧
    secure_filename "" = "" ∧
    ∃ record, Event.cosmosWrite record ∈ (submit_claim env req).2 ∧
      record.documents.length = (reqFiles req).length := by
  have hnf : noUsableFiles req = false := (noUsableFiles_false_iff req).mpr hfiles
  rw [submit_claim_success_eq env req customerId policyId hnf hval hup (hupsert _)]
  refine ⟨?_, by decide, ?_⟩
  · intro f hf
    exact List.mem_cons_of_mem _
      (List.mem_append_left _ (List.mem_append_left _ (mem_filesEvents env env.claimId _ f hf)))
  · exact ⟨builtRecord env req customerId policyId ((reqFiles req).map (fileDetail env)),
      by simp, by simp [builtRecord]⟩

theorem C10_empty_named_files_processed_witness :
    (∀ f ∈ reqFiles reqTwo,
       Event.blobWrite (secure_filename f.filename) ∈ (submit_claim envOk reqTwo).2) ∧
    secure_filename "" = "" ∧
    ∃ record, Event.cosmosWrite record ∈ (submit_claim envOk reqTwo).2 ∧
      record.documents.length = (reqFiles reqTwo).length :=
  C10_empty_named_files_processed envOk reqTwo "C1" "P1"
    ⟨⟨"photo.jpg", 1⟩, by decide, by decide⟩ rfl (fun _ _ => rfl) (fun _ => rfl)

theorem mem_dictInsert (fd : List (String × String)) (k v : String) :
    ∀ p ∈ dictInsert fd k v, p ∈ fd ∨ p = (k, v) := by
  induction fd with
  | nil =>
    intro p hp
    simp only [dictInsert, List.mem_singleton] at hp
    exact Or.inr hp
  | cons kv0 rest ih =>
    intro p hp
    obtain ⟨k0, v0⟩ := kv0
    by_cases h : k0 = k
    · simp only [dictInsert, if_pos h] at hp
      rcases List.mem_cons.mp hp with rfl | hp2
      · exact Or.inr (by rw [h])
      · exact Or.inl (List.mem_cons_of_mem _ hp2)
    · simp only [dictInsert, if_neg h] at hp
      rcases List.mem_cons.mp hp with rfl | hp2
      · exact Or.inl (List.mem_cons_self _ _)
      · rcases ih p hp2 with hfd | rfl
        · exact Or.inl (List.mem_cons_of_mem _ hfd)
        · exact Or.inr rfl

theorem buildFormData_mem :
    ∀ (kvs : List (Option String × Option String)) (fd : List (String × String)),
      ∀ p ∈ buildFormData kvs fd,
        p ∈ fd ∨ ∃ kv ∈ kvs,
          p.1 = pyStrip (kv.1.getD "") ∧ p.1 ≠ "" ∧ p.2 = pyStrip (kv.2.getD "") := by
  intro kvs
  induction kvs with
  | nil => intro fd p hp; exact Or.inl hp
  | cons kv rest ih =>
    intro fd p hp
    simp only [buildFormData] at hp
    by_cases hk : pyStrip (kv.1.getD "") ≠ ""
    · rw [if_pos hk] at hp
      rcases ih _ p hp with hin | ⟨kv2, h2, h3, h4, h5⟩
      · rcases mem_dictInsert fd _ _ p hin with hfd | rfl
        · exact Or.inl hfd
        · exact Or.inr ⟨kv, List.mem_cons_self _ _, rfl, hk, rfl⟩
      · exact Or.inr ⟨kv2, List.mem_cons_of_mem _ h2, h3, h4, h5⟩
    · rw [if_neg hk] at hp
      rcases ih _ p hp with hin | ⟨kv2, h2, h3, h4, h5⟩
      · exact Or.inl hin
      · exact Or.inr ⟨kv2, List.mem_cons_of_mem _ h2, h3, h4, h5⟩

/-- C5: every entry of a file's recorded field mapping has a non-empty key
that is the stripped key text of some recognized pair and a value that is
the stripped value text of that pair (pairs whose stripped key is empty
never contribute an entry); and when the recognizer call raises, the
mapping is instead the single-entry error marker. -/
theorem C5_form_data_trimmed (env : Env) (f : FilePart) :
    (∀ kvs, env.analyzeDocument (fileUrl env f) = .ok kvs →
       ∀ p ∈ (fileDetail env f).formData,
         p.1 ≠ "" ∧ ∃ kv ∈ kvs,
           p.1 = pyStrip (kv.1.getD "") ∧ p.2 = pyStrip (kv.2.getD "")) ∧
    (∀ e, env.analyzeDocument (fileUrl env f) = .error e →
       (fileDetail env f).formData = [("error", "Recognizer error: " ++ e)]) := by
  constructor
  · intro kvs hok p hp
    have hfd : (fileDetail env f).formData = buildFormData kvs [] := by
      simp [fileDetail, hok]
    rw [hfd] at hp
    rcases buildFormData_mem kvs [] p hp with h | ⟨kv, hkv, h1, h2, h3⟩
    · cases h
    · exact ⟨h2, kv, hkv, h1, h3⟩
  · intro e herr
    simp [fileDetail, herr]

/-- Concrete recognizer output: a pair needing trimming, a pair with no key
object, and a pair whose key strips to empty. -/
def kvsA : List (Option String × Option String) :=
  [(some "  k ", some " v  "), (none, some "zz"), (some "  ", some "w")]

/-- Concrete fixture: the recognizer succeeds with `kvsA`. -/
def envKV : Env :=
  { envOk with analyzeDocument := fun _ => Except.ok kvsA }

/-- Concrete file fixture. -/
def fileA : FilePart := ⟨"photo.jpg", 1⟩

theorem C5_form_data_trimmed_witness :
    (("k", "v").1 ≠ "" ∧ ∃ kv ∈ kvsA,
        ("k", "v").1 = pyStrip (kv.1.getD "") ∧ ("k", "v").2 = pyStrip (kv.2.getD "")) ∧
    (fileDetail envOk fileA).formData = [("error", "Recognizer error: recognizer down")] :=
  ⟨(C5_form_data_trimmed envKV fileA).1 kvsA rfl ("k", "v")
     (show ("k", "v") ∈ [("k", "v")] from List.mem_singleton.mpr rfl),
   (C5_form_data_trimmed envOk fileA).2 "recognizer down" rfl⟩

/-- C6: a caption call that succeeds with an empty caption list records the
sentinel `"No caption detected"`; a caption call that raises records the
same fixed degraded text in place of a caption; and in neither case is the
failure propagated: the per-file step still returns its result whenever the
upload succeeded, whatever the caption oracle did. -/
theorem C6_caption_degraded (env : Env) (f : FilePart) :
    (env.describeImage (fileUrl env f) = .ok [] →
       (fileDetail env f).caption = "No caption detected") ∧
    (∀ e, env.describeImage (fileUrl env f) = .error e →
       (fileDetail env f).caption = "No caption detected") ∧
    (∀ claimId, env.uploadBlob (secure_filename f.filename) f.stream = .ok () →
       (processFile env claimId f).2 = .ok (fileDetail env f)) := by
  refine ⟨?_, ?_, ?_⟩
  · intro h; simp [fileDetail, h]
  · intro e h; simp [fileDetail, h]
  · intro claimId h
    rw [processFile_ok env claimId f h]

/-- Concrete fixture: the caption call succeeds but returns no caption. -/
def envNoCaption : Env :=
  { envOk with describeImage := fun _ => .ok [] }

theorem C6_caption_degraded_witness :
    (fileDetail envNoCaption fileA).caption = "No caption detected" ∧
    (fileDetail envOk fileA).caption = "No caption detected" ∧
    (processFile envOk "claim-1" fileA).2 = .ok (fileDetail envOk fileA) :=
  ⟨(C6_caption_degraded envNoCaption fileA).1 rfl,
   (C6_caption_degraded envOk fileA).2.1 "vision down" rfl,
   (C6_caption_degraded envOk fileA).2.2 "claim-1" rfl⟩

theorem submit_claim_eq_uploadErr (env : Env) (req : Request)
    (customerId policyId : String) (evs : List Event) (e : String)
    (hfiles : noUsableFiles req = false)
    (hv : validate_claim env req.name req.email = .valid customerId policyId)
    (hpf : processFiles env env.claimId (reqFiles req) = (evs, .error e)) :
    submit_claim env req =
      (Response.json500 "Internal Server Error",
       Event.sqlLookup req.name req.email :: evs) := by
  simp only [submit_claim, hfiles, Bool.false_eq_true, if_false, hv, hpf]
  simp

theorem submit_claim_eq_upsertErr (env : Env) (req : Request)
    (customerId policyId : String) (evs : List Event) (ds : List DocumentDetail) (e : String)
    (hfiles : noUsableFiles req = false)
    (hv : validate_claim env req.name req.email = .valid customerId policyId)
    (hpf : processFiles env env.claimId (reqFiles req) = (evs, .ok ds))
    (hup : env.upsertItem (builtRecord env req customerId policyId ds) = .error e) :
    submit_claim env req =
      (Response.json500 "Internal Server Error",
       Event.sqlLookup req.name req.email ::
         (evs ++ [Event.gptCall,
                  Event.cosmosWrite (builtRecord env req customerId policyId ds)])) := by
  simp only [submit_claim, hfiles, Bool.false_eq_true, if_false, hv, hpf, hup]
  simp

theorem submit_claim_eq_ok (env : Env) (req : Request)
    (customerId policyId : String) (evs : List Event) (ds : List DocumentDetail)
    (hfiles : noUsableFiles req = false)
    (hv : validate_claim env req.name req.email = .valid customerId policyId)
    (hpf : processFiles env env.claimId (reqFiles req) = (evs, .ok ds))
    (hup : env.upsertItem (builtRecord env req customerId policyId ds) = .ok ()) :
    submit_claim env req =
      (Response.successHtml "Claim submitted successfully." env.claimId,
       Event.sqlLookup req.name req.email ::
         (evs ++ [Event.gptCall,
                  Event.cosmosWrite (builtRecord env req customerId policyId ds)] ++
          webhookStep env (builtRecord env req customerId policyId ds))) := by
  simp only [submit_claim, hfiles, Bool.false_eq_true, if_false, hv, hpf, hup]
  simp [List.append_assoc]

theorem processFile_trace_shape (env : Env) (claimId : String) (f : FilePart)
    (record : ClaimRecord) :
    Event.webhookPost record ∉ (processFile env claimId f).1 ∧
    Event.cosmosWrite record ∉ (processFile env claimId f).1 := by
  cases h : env.uploadBlob (secure_filename f.filename) f.stream with
  | error e => simp [processFile, h]
  | ok u =>
    cases u
    cases h2 : env.sqlInsertDoc claimId (secure_filename f.filename) (fileUrl env f) with
    | ok v => simp [processFile, h, h2, fileEvents]
    | error e => simp [processFile, h, h2, fileEvents]

theorem processFiles_trace_shape (env : Env) (claimId : String) :
    ∀ (files : List FilePart) (record : ClaimRecord),
      Event.webhookPost record ∉ (processFiles env claimId files).1 ∧
      Event.cosmosWrite record ∉ (processFiles env claimId files).1 := by
  intro files
  induction files with
  | nil => intro record; simp [processFiles]
  | cons f rest ih =>
    intro record
    have hf := processFile_trace_shape env claimId f record
    have hr := ih record
    cases hpf : processFile env claimId f with
    | mk evs res =>
      rw [hpf] at hf
      cases res with
      | error e => simpa [processFiles, hpf] using hf
      | ok d =>
        cases hrest : processFiles env claimId rest with
        | mk evs2 res2 =>
          rw [hrest] at hr
          cases res2 with
          | error e2 =>
            constructor <;>
              simp [processFiles, hpf, hrest, List.mem_append, hf.1, hf.2, hr.1, hr.2]
          | ok ds =>
            constructor <;>
              simp [processFiles, hpf, hrest, List.mem_append, hf.1, hf.2, hr.1, hr.2]

theorem processFiles_webhook_irrelevant (env : Env)
    (wp : ClaimRecord → Except String Unit) (claimId : String) :
    ∀ files : List FilePart,
      processFiles { env with webhookPost := wp } claimId files =
        processFiles env claimId files := by
  intro files
  induction files with
  | nil => rfl
  | cons f rest ih =>
    simp only [processFiles]
    rw [show processFile { env with webhookPost := wp } claimId f = processFile env claimId f
          from rfl,
        ih]

/-- C8: a blob-upload exception or a document-store (Cosmos upsert)
exception is not tolerated: it reaches the handler's outer `except` and the
caller gets the 500 response whose body is the fixed generic
`"Internal Server Error"` — the internal exception text `e` never appears
in the response. -/
theorem C8_fatal_faults_500 (env : Env) (req : Request)
    (customerId policyId : String)
    (hfiles : noUsableFiles req = false)
    (hval : env.sqlValidate req.name req.email = .ok (some (customerId, policyId))) :
    ((∃ f ∈ reqFiles req, ∃ e,
        env.uploadBlob (secure_filename f.filename) f.stream = .error e) →
      (submit_claim env req).1 = Response.json500 "Internal Server Error") ∧
    ((∀ f ∈ reqFiles req, env.uploadBlob (secure_filename f.filename) f.stream = .ok ()) →
     (∀ record, ∃ e, env.upsertItem record = .error e) →
      (submit_claim env req).1 = Response.json500 "Internal Server Error") := by
  have hv : validate_claim env req.name req.email = .valid customerId policyId := by
    unfold validate_claim; rw [hval]
  constructor
  · intro hex
    obtain ⟨e, he⟩ := processFiles_err env env.claimId (reqFiles req) hex
    cases hpf : processFiles env env.claimId (reqFiles req) with
    | mk evs res =>
      rw [hpf] at he
      cases res with
      | ok ds => simp at he
      | error e2 =>
        rw [submit_claim_eq_uploadErr env req customerId policyId evs e2 hfiles hv hpf]
  · intro hup hupsert
    have hpf := processFiles_ok env env.claimId (reqFiles req) hup
    obtain ⟨e, he⟩ :=
      hupsert (builtRecord env req customerId policyId ((reqFiles req).map (fileDetail env)))
    rw [submit_claim_eq_upsertErr env req customerId policyId _ _ e hfiles hv hpf he]

/-- Concrete fixture: blob upload raises. -/
def envUploadDown : Env :=
  { envOk with uploadBlob := fun _ _ => .error "blob down" }

/-- Concrete fixture: Cosmos upsert raises. -/
def envUpsertDown : Env :=
  { envOk with upsertItem := fun _ => .error "cosmos down" }

theorem C8_fatal_faults_500_witness :
    (submit_claim envUploadDown reqTwo).1 = Response.json500 "Internal Server Error" ∧
    (submit_claim envUpsertDown reqTwo).1 = Response.json500 "Internal Server Error" :=
  ⟨(C8_fatal_faults_500 envUploadDown reqTwo "C1" "P1" rfl rfl).1
     ⟨⟨"photo.jpg", 1⟩, by decide, "blob down", rfl⟩,
   (C8_fatal_faults_500 envUpsertDown reqTwo "C1" "P1" rfl rfl).2
     (fun _ _ => rfl) (fun _ => ⟨"cosmos down", rfl⟩)⟩

/-- C9: (1) whenever a webhook notification for a record appears in the
trace, it is immediately preceded by the Cosmos write of that very record
and the request has already committed to the success response — the
notification is only ever attempted after persistence; and (2) the whole
outcome of `submit_claim` (response and trace alike) is unchanged under any
replacement of the webhook-call oracle, so a notification failure neither
reverses the persisted claim nor changes the response. -/
theorem C9_webhook_after_persist (env : Env) (req : Request) :
    (∀ record, Event.webhookPost record ∈ (submit_claim env req).2 →
       ∃ pre, (submit_claim env req).2 =
           pre ++ [Event.cosmosWrite record, Event.webhookPost record] ∧
         (submit_claim env req).1 =
           Response.successHtml "Claim submitted successfully." env.claimId) ∧
    (∀ wp, submit_claim { env with webhookPost := wp } req = submit_claim env req) := by
  constructor
  · intro record hmem
    by_cases hnf : noUsableFiles req = true
    · rw [submit_claim_reject_files env req hnf] at hmem
      simp at hmem
    · have hnf' : noUsableFiles req = false := by simpa using hnf
      cases hv : validate_claim env req.name req.email with
      | invalid =>
        rw [submit_claim_reject_policy env req hnf' hv] at hmem
        simp at hmem
      | valid customerId policyId =>
        cases hpf : processFiles env env.claimId (reqFiles req) with
        | mk evs res =>
          have hshape := processFiles_trace_shape env env.claimId (reqFiles req) record
          rw [hpf] at hshape
          cases res with
          | error e =>
            rw [submit_claim_eq_uploadErr env req customerId policyId evs e hnf' hv hpf] at hmem
            simp at hmem
            exact absurd hmem hshape.1
          | ok ds =>
            cases hup : env.upsertItem (builtRecord env req customerId policyId ds) with
            | error e =>
              rw [submit_claim_eq_upsertErr env req customerId policyId evs ds e hnf' hv hpf hup]
                at hmem
              simp [List.mem_append, hshape.1] at hmem
            | ok u =>
              cases u
              rw [submit_claim_eq_ok env req customerId policyId evs ds hnf' hv hpf hup] at hmem ⊢
              rw [webhookStep_eq] at hmem ⊢
              by_cases hurl : env.webhookUrl ≠ ""
              · rw [if_pos hurl] at hmem ⊢
                simp [List.mem_append, hshape.1] at hmem
                subst hmem
                exact ⟨Event.sqlLookup req.name req.email :: (evs ++ [Event.gptCall]),
                  by simp, rfl⟩
              · rw [if_neg hurl] at hmem
                simp [List.mem_append, hshape.1] at hmem
  · intro wp
    by_cases hnf : noUsableFiles req = true
    · rw [submit_claim_reject_files { env with webhookPost := wp } req hnf,
          submit_claim_reject_files env req hnf]
    · have hnf' : noUsableFiles req = false := by simpa using hnf
      have hws : ∀ cd, webhookStep { env with webhookPost := wp } cd = webhookStep env cd :=
        fun cd => by rw [webhookStep_eq, webhookStep_eq]
      cases hv : validate_claim env req.name req.email with
      | invalid =>
        rw [submit_claim_reject_policy { env with webhookPost := wp } req hnf' hv,
            submit_claim_reject_policy env req hnf' hv]
      | valid customerId policyId =>
        have hpfw := processFiles_webhook_irrelevant env wp env.claimId (reqFiles req)
        cases hpf : processFiles env env.claimId (reqFiles req) with
        | mk evs res =>
          cases res with
          | error e =>
            rw [submit_claim_eq_uploadErr { env with webhookPost := wp } req customerId
                  policyId evs e hnf' hv (hpfw.trans hpf),
                submit_claim_eq_uploadErr env req customerId policyId evs e hnf' hv hpf]
          | ok ds =>
            cases hup : env.upsertItem (builtRecord env req customerId policyId ds) with
            | error e =>
              rw [submit_claim_eq_upsertErr { env with webhookPost := wp } req customerId
                    policyId evs ds e hnf' hv (hpfw.trans hpf) hup,
                  submit_claim_eq_upsertErr env req customerId policyId evs ds e hnf' hv hpf hup]
              rfl
            | ok u =>
              cases u
              rw [submit_claim_eq_ok { env with webhookPost := wp } req customerId policyId
                    evs ds hnf' hv (hpfw.trans hpf) hup,
                  submit_claim_eq_ok env req customerId policyId evs ds hnf' hv hpf hup,
                  hws]
              rfl

/-- The record built for the `envOk`/`reqTwo` fixture run. -/
def recW : ClaimRecord :=
  builtRecord envOk reqTwo "C1" "P1" ((reqFiles reqTwo).map (fileDetail envOk))

theorem C9_webhook_after_persist_witness :
    (∃ pre, (submit_claim envOk reqTwo).2 =
        pre ++ [Event.cosmosWrite recW, Event.webhookPost recW] ∧
      (submit_claim envOk reqTwo).1 =
        Response.successHtml "Claim submitted successfully." envOk.claimId) ∧
    submit_claim { envOk with webhookPost := fun _ => Except.ok () } reqTwo =
      submit_claim envOk reqTwo :=
  ⟨(C9_webhook_after_persist envOk reqTwo).1 recW
     (by
       rw [submit_claim_success_eq envOk reqTwo "C1" "P1" rfl rfl (fun _ _ => rfl) rfl]
       exact List.mem_cons_of_mem _ (List.mem_append_right _
         (show Event.webhookPost recW ∈ [Event.webhookPost recW] from
           List.mem_singleton.mpr rfl))),
   (C9_webhook_after_persist envOk reqTwo).2 _⟩

end ClaimIntake
